import Mathlib

/-!
Verification development for the Logseq-markdown export tool
(`src/logseq-md-export.py`).

The program converts one outline-structured Logseq markdown document into a
flat standard-markdown document.  Its core is `export_file_to_folder`:

  * pass 1 splits each raw input line into leading tabs + content and
    classifies it with `get_line_type`;
  * pass 2 walks the classified lines with mutable counters
    (`target_line_indent`, `cur_list_depth`, `last_target_line_indent`,
    `traversing_code_block`, `lines_to_skip`), rewriting each line's content
    (asset links, drawio renderer links, task markers), recomputing a target
    indentation, eliding Logseq-only metadata, and emitting one chunk
    `tabs ++ body ++ "\n"` per non-elided line;
  * asset references cause a copy request (`import_asset`), which we model as
    a pure record of (filename, subdir) since the copy itself is I/O.

Strings are modelled as `List Char`.  A document is the list of its lines
as produced by Python's `readlines`, with the trailing newline removed
(the source applies `^(\t*)(.*)$` to every raw line, which always matches
and captures exactly the leading tabs and the rest of the line before the
trailing newline; the `re is None` branch in the source is dead code).
Input lines therefore contain no newline character, which also lets the
embedded regular expressions treat `.` as "any character".
-/

/-- Abbreviation: the characters of a string literal. -/
def str (s : String) : List Char := s.data

/-- The backtick character (code 96), used by the code-fence checks. -/
def backtick : Char := Char.ofNat 96

/-- Python `hay.find(needle) >= 0`: `needle` occurs as a contiguous
substring of `hay`. -/
def hasSubstr (needle : List Char) : List Char → Bool
  | [] => needle.isEmpty
  | c :: rest => needle.isPrefixOf (c :: rest) || hasSubstr needle rest

/-- Enum `LineType` from the source (enum of syntactic roles of one line). -/
inductive LineType where
  | title
  | list
  | quote
  | codeBlockMarker
  | code
  | empty
  | text
deriving DecidableEq, Repr

/-- Enum `LineHierarchy` from the source: a line starts a new outline node
(`parent`) or continues the previous one (`child`). -/
inductive LineHierarchy where
  | parent
  | child
deriving DecidableEq, Repr

/-- Result of `get_line_type`.  The source either returns a pair, calls
`exit(1)` after logging a parsing error, or — when the content is empty —
raises an uncaught `IndexError` on `line_content_raw[0]`.  We keep the two
failure modes distinct. -/
inductive LineResult where
  | ok (t : LineType) (h : LineHierarchy)
  | parseError
  | indexError
deriving DecidableEq, Repr

/-- Function `get_line_type(line, line_content_raw)` from the source.  `content` is
the raw line with its leading tabs stripped.  The two code-fence regexes
`^(\t*)- (` + three backticks + `)` and `^(\t*)  (` + three backticks + `)`
run on the full raw line; because the group `(\t*)` is greedy and neither
`"- "` nor a space can match a given-back tab, they are equivalent to a
prefix test on the content after the tabs, which is how we embed them. -/
def get_line_type (content : List Char) : LineResult :=
  match content with
  | [] => LineResult.indexError
  | l1 :: _ =>
    let l2 := content[2]?
    if l1 = '#' then LineResult.ok LineType.title LineHierarchy.parent
    else
      match l2 with
      | none =>
        if l1 = '-' then LineResult.ok LineType.empty LineHierarchy.parent
        else if l1 = ' ' then LineResult.ok LineType.empty LineHierarchy.child
        else LineResult.parseError
      | some t2 =>
        if t2 = ' ' then LineResult.ok LineType.text LineHierarchy.child
        else if t2 = '>' then
          if l1 = '-' then LineResult.ok LineType.quote LineHierarchy.parent
          else LineResult.ok LineType.quote LineHierarchy.child
        else if t2 = '#' then
          if l1 = '-' then LineResult.ok LineType.title LineHierarchy.parent
          else if l1 = ' ' then LineResult.ok LineType.text LineHierarchy.child
          else LineResult.parseError
        else if t2 = backtick then
          if (str "- ```").isPrefixOf content then
            LineResult.ok LineType.codeBlockMarker LineHierarchy.parent
          else if (str "  ```").isPrefixOf content then
            LineResult.ok LineType.codeBlockMarker LineHierarchy.child
          else if l1 = '-' then LineResult.ok LineType.list LineHierarchy.parent
          else if l1 = ' ' then LineResult.ok LineType.text LineHierarchy.child
          else LineResult.parseError
        else
          if l1 = '-' then LineResult.ok LineType.list LineHierarchy.parent
          else LineResult.ok LineType.text LineHierarchy.child

/-- One classified line of pass 1 (the dict appended to `lines`). -/
structure LineInfo where
  content : List Char
  indent : Nat
  type : LineType
  hierarchy : LineHierarchy
deriving DecidableEq, Repr

/-- Placeholder line used for (always-guarded) list lookups. -/
def dfltLine : LineInfo :=
  { content := [], indent := 0, type := LineType.text, hierarchy := LineHierarchy.child }

/-- The two failure modes of a run. -/
inductive PassErr where
  | parseError
  | indexError
deriving DecidableEq, Repr

/-- Pass 1 for one raw line: split `^(\t*)(.*)$` and classify. -/
def classifyLine (raw : List Char) : Except PassErr LineInfo :=
  let content := raw.dropWhile (fun ch => ch = '\t')
  let indent := (raw.takeWhile (fun ch => ch = '\t')).length
  match get_line_type content with
  | LineResult.ok t h =>
    Except.ok { content := content, indent := indent, type := t, hierarchy := h }
  | LineResult.parseError => Except.error PassErr.parseError
  | LineResult.indexError => Except.error PassErr.indexError

/-- Pass 1 over the whole document; the source aborts at the first
unclassifiable line, before any of pass 2 runs. -/
def pass1 : List (List Char) → Except PassErr (List LineInfo)
  | [] => Except.ok []
  | r :: rs =>
    match classifyLine r with
    | Except.error e => Except.error e
    | Except.ok li =>
      match pass1 rs with
      | Except.error e => Except.error e
      | Except.ok rest => Except.ok (li :: rest)

/-- A request to materialize one asset (the pure shadow of `import_asset`:
we record the `filename` and `subdir` arguments; the copy itself is I/O). -/
structure AssetReq where
  filename : List Char
  subdir : List Char
deriving DecidableEq, Repr

/-- Longest prefix of `l` that is followed by an occurrence of `ch`
(i.e. everything before the LAST occurrence of `ch`); `none` if `ch` does
not occur.  This is the greedy `(.*)` before a literal in the source's
regular expressions. -/
def takeToLast (ch : Char) : List Char → Option (List Char)
  | [] => none
  | c :: r =>
    match takeToLast ch r with
    | some t => some (c :: t)
    | none => if c = ch then some [] else none

/-- Suffix part of the asset regex `(../)assets/(.*)\)`: the three
characters after `](` must be any-any-`/`, then the literal `assets/`,
then the greedy group up to the LAST `)`.  Returns that group. -/
def assetSfx : List Char → Option (List Char)
  | _ :: _ :: '/' :: r =>
    if (str "assets/").isPrefixOf r then takeToLast ')' (r.drop 7) else none
  | _ => none

/-- Backtracking scan for the Python search of pattern `(^.*\[.*\]\()(../)assets/(.*)\)` on `c`.
The greedy groups make the engine settle on the RIGHTMOST occurrence of
`](` that is preceded by some `[` and whose suffix matches; we scan
left-to-right but prefer the deeper (more to the right) success.  Returns
(group 1 = everything through `](`, group 3 = the asset name). -/
def assetGo (seen : Bool) (acc : List Char) : List Char → Option (List Char × List Char)
  | [] => none
  | c :: rest =>
    match assetGo (seen || c = '[') (c :: acc) rest with
    | some r => some r
    | none =>
      if seen && c = ']' && rest.head? = some '(' then
        match assetSfx rest.tail with
        | some g3 => some (acc.reverse ++ [']', '('], g3)
        | none => none
      else none

/-- The asset-link pattern of the source, on a line's content. -/
def assetMatch (c : List Char) : Option (List Char × List Char) :=
  assetGo false [] c

/-- Literal of the drawio regex (note: with a trailing space, unlike the
coarse `find` trigger). -/
def drawioLit : List Char := str "\x7b\x7brenderer :drawio, "

/-- Greedy group 2 of the drawio regex `(.*.svg)\x7d\x7d`: the LONGEST
prefix `g` of `rest` with `g` of length at least 4, ending in `svg`
(`.*` + any char + `svg`), followed by two closing braces.  `k` counts the
candidate lengths still to try, largest first. -/
def drawioTake : Nat → List Char → Option (List Char)
  | 0, _ => none
  | k + 1, rest =>
    let g := rest.take (k + 1)
    if k + 1 ≥ 4 && (str "svg").isSuffixOf g
        && (str "\x7d\x7d").isPrefixOf (rest.drop (k + 1)) then
      some g
    else drawioTake k rest

/-- Backtracking scan for
the Python search of pattern `(^.*)` + two opening braces + `renderer :drawio, (.*.svg)` + two closing braces on `c`:
the greedy `(^.*)` picks the RIGHTMOST occurrence of the literal whose
remainder admits a group-2 match.  Returns (group 1, the `.svg` name). -/
def drawioGo (acc : List Char) : List Char → Option (List Char × List Char)
  | [] => none
  | c :: rest =>
    match drawioGo (c :: acc) rest with
    | some r => some r
    | none =>
      if drawioLit.isPrefixOf (c :: rest) then
        match drawioTake ((c :: rest).drop drawioLit.length).length
            ((c :: rest).drop drawioLit.length) with
        | some name => some (acc.reverse, name)
        | none => none
      else none

/-- The drawio-renderer pattern of the source, on a line's content. -/
def drawioMatch (c : List Char) : Option (List Char × List Char) :=
  drawioGo [] c

/-- Pattern the Python search of pattern `(^\t*)- TODO (.*)$` on `c` and its four siblings: the greedy
`(\t*)` takes exactly the leading tabs (a given-back tab can never match
`-`), then the literal marker, then the rest of the line.  Returns
(captured tabs, rest). -/
def checkboxMatch (marker : List Char) (c : List Char) : Option (List Char × List Char) :=
  let tabs := c.takeWhile (fun ch => ch = '\t')
  let r := c.dropWhile (fun ch => ch = '\t')
  if marker.isPrefixOf r then some (tabs, r.drop marker.length) else none

/-- The `elif` chain of `export_file_to_folder` that rewrites a line's
content in place (asset links, drawio renderer links, task markers) and
requests asset copies.  Exactly one branch fires, selected by a substring
`find`; a branch whose finer regex then fails leaves the line unmodified
(the source's soft-degradation path).  Not applied to code-block-marker
lines (their branch of the chain just flips the toggle). -/
def rewriteContent (c : List Char) : List Char × List AssetReq :=
  if hasSubstr (str "../assets") c then
    match assetMatch c with
    | some (g1, g3) => (g1 ++ str "assets/" ++ g3 ++ [')'], [{ filename := g3, subdir := [] }])
    | none => (c, [])
  else if hasSubstr (str "\x7b\x7brenderer :drawio,") c then
    match drawioMatch c with
    | some (g1, name) =>
      (g1 ++ str "![" ++ name ++ str "](assets/" ++ name ++ [')'],
       [{ filename := name, subdir := str "storages/logseq-drawio-plugin" }])
    | none => (c, [])
  else if hasSubstr (str "- TODO ") c then
    match checkboxMatch (str "- TODO ") c with
    | some (tabs, rest) => (tabs ++ str "- **&#x2610; TODO** " ++ rest, [])
    | none => (c, [])
  else if hasSubstr (str "- DOING ") c then
    match checkboxMatch (str "- DOING ") c with
    | some (tabs, rest) => (tabs ++ str "- **&#x231B; DOING** " ++ rest, [])
    | none => (c, [])
  else if hasSubstr (str "- DONE ") c then
    match checkboxMatch (str "- DONE ") c with
    | some (tabs, rest) => (tabs ++ str "- **&#x2611;** ~~" ++ rest ++ str "~~", [])
    | none => (c, [])
  else if hasSubstr (str "- LATER ") c then
    match checkboxMatch (str "- LATER ") c with
    | some (tabs, rest) => (tabs ++ str "- **&#x23F2; LATER** " ++ rest, [])
    | none => (c, [])
  else if hasSubstr (str "- NOW ") c then
    match checkboxMatch (str "- NOW ") c with
    | some (tabs, rest) => (tabs ++ str "- **&#x23F0; NOW** " ++ rest, [])
    | none => (c, [])
  else (c, [])

/-- The rewrite chain as dispatched on the line's type: for a
code-block-marker line the chain's first branch flips the toggle instead,
so no rewrite and no asset request happen. -/
def rewriteStep (t : LineType) (c : List Char) : List Char × List AssetReq :=
  if t = LineType.codeBlockMarker then (c, []) else rewriteContent c

/-- The mutable counters of `export_file_to_folder`, threaded through the
per-line loop. -/
structure St where
  target_line_indent : Int
  cur_list_depth : Int
  last_target_line_indent : Int
  traversing_code_block : Bool
  lines_to_skip : Nat
deriving DecidableEq, Repr

/-- Initial counters of a run. -/
def initSt : St :=
  { target_line_indent := 0, cur_list_depth := 0, last_target_line_indent := 0,
    traversing_code_block := false, lines_to_skip := 0 }

/-- Python's `lines[i - 1]`: for `i = 0` this is `lines[-1]`, the LAST line
of the document (negative indexing), not an error. -/
def pyPrev (all : List LineInfo) (i : Nat) : LineInfo :=
  if i = 0 then all.getLastD dfltLine else all.getD (i - 1) dfltLine

/-- The `CALCULATE TARGET INDENTATION` block of the source, for line `li`
at index `i`.  Note that the second `if` is a separate statement: it also
runs when `i = 0` (then comparing against `lines[-1]`) and whenever
neither this line nor `lines[i-1]` is a title. -/
def calcIndent (all : List LineInfo) (i : Nat) (li : LineInfo) (st : St) : St :=
  let prev := pyPrev all i
  let st1 :=
    if i = 0 then { st with target_line_indent := 0 }
    else if li.type = LineType.title ∨ prev.type = LineType.title then
      { st with target_line_indent := 0 }
    else st
  if li.type ≠ LineType.title ∧ prev.type ≠ LineType.title then
    if li.indent > prev.indent then
      let d := st1.cur_list_depth + 1
      { st1 with cur_list_depth := d,
                 target_line_indent :=
                   if d > 1 then st1.last_target_line_indent + 1
                   else st1.last_target_line_indent }
    else if li.indent < prev.indent then
      { st1 with target_line_indent :=
                   max 0 (st1.last_target_line_indent
                          - ((prev.indent : Int) - (li.indent : Int))),
                 cur_list_depth := st1.cur_list_depth - 1 }
    else
      { st1 with target_line_indent := st1.last_target_line_indent }
  else st1

/-- The `for l in range(i, len(lines))` scan of the `:LOGBOOK:` branch,
restricted to the lines AFTER the current one (the current, possibly
rewritten, content is checked separately): number of leading lines whose
content does not contain `:END:`. -/
def skipCountAux : List LineInfo → Nat
  | [] => 0
  | l :: ls => if hasSubstr (str ":END:") l.content then 0 else 1 + skipCountAux ls

/-- Python `content[content.find("#"):]` of the title branch: from the
first `#` on; when no `#` occurs, `find` returns `-1` and the slice keeps
only the last character (a title always contains `#`, so that case is
unreachable in practice but embedded faithfully). -/
def pyFromHash (c : List Char) : List Char :=
  if c.any (fun ch => ch = '#') then c.dropWhile (fun ch => ch ≠ '#')
  else
    match c.getLast? with
    | some ch => [ch]
    | none => []

/-- What one input line contributed to the output document. -/
inductive Disp where
  | skipped
  | elided
  | emitted (body : List Char)
deriving DecidableEq, Repr

/-- Projection `Disp.emits d`: the line contributed one output chunk. -/
def Disp.emits : Disp → Bool
  | Disp.emitted _ => true
  | _ => false

/-- Trace record for one input line of pass 2: its index, the classified
line, the content after the in-place rewrite chain, the asset requests it
made, the code-block flag and target indentation at its processing point,
and its disposition (for a line consumed by `lines_to_skip` the rewrite
chain and the indentation block never ran; those fields keep the line's
original content and the stale counters). -/
structure Entry where
  idx : Nat
  line : LineInfo
  rewritten : List Char
  reqs : List AssetReq
  trav : Bool
  target : Int
  disp : Disp
deriving DecidableEq, Repr

/-- The first branch of the rewrite chain: a code-block-marker line flips
the toggle (`traversing_code_block = not traversing_code_block`). -/
def st0Of (li : LineInfo) (st : St) : St :=
  if li.type = LineType.codeBlockMarker then
    { st with traversing_code_block := !st.traversing_code_block }
  else st

/-- The kind-specific representation chain of the source (the
`if line_info["type"] == ...` ladder of the non-code-block branch, run
after the collapsed/`:LOGBOOK:` elisions), followed by the universal
continuation rule (append a backslash when the next line is Text and the
current one is neither a fence marker nor a title).  Returns the body and
the possibly-updated counters (a title resets `cur_list_depth`). -/
def representLine (no_br : Bool) (li : LineInfo) (c : List Char) (st1 : St)
    (nxt : LineInfo) (hasNext : Bool) : List Char × St :=
  let bs :=
    match li.type with
    | LineType.title => (pyFromHash c, { st1 with cur_list_depth := (0 : Int) })
    | LineType.list =>
      (if st1.cur_list_depth > 0 then
         c ++ (if hasNext ∧ nxt.indent < li.indent then ['\n'] else [])
       else if hasNext ∧ nxt.type = LineType.list ∧ nxt.indent = li.indent then
         c.drop 2 ++ ['\\']
       else c.drop 2, st1)
    | LineType.text =>
      (c.drop 2 ++ (if hasNext ∧ nxt.type ≠ li.type then ['\n'] else []), st1)
    | LineType.code => (c.drop 2, st1)
    | LineType.empty => ((if no_br then ['\n'] else str "<br>\n"), st1)
    | LineType.codeBlockMarker => (c.drop 2, st1)
    | LineType.quote => (c.drop 2, st1)
  (if li.type ≠ LineType.codeBlockMarker ∧ hasNext
      ∧ nxt.type = LineType.text ∧ li.type ≠ LineType.title then
     bs.1 ++ ['\\']
   else bs.1, bs.2)

/-- The per-line loop of `export_file_to_folder` (everything from the
`for i, line_info in enumerate(lines)` on), producing the trace of all
lines plus the final counters.  `all` is the full classified list (used
for `lines[i-1]`, `lines[i+1]` and the `:LOGBOOK:` scan); `rem` is the
tail from index `i` on. -/
def processLines (all : List LineInfo) (no_br : Bool) :
    List LineInfo → Nat → St → List Entry × St
  | [], _, st => ([], st)
  | li :: rest, i, st =>
    if st.lines_to_skip > 0 then
      let e : Entry :=
        { idx := i, line := li, rewritten := li.content, reqs := [],
          trav := st.traversing_code_block, target := st.target_line_indent,
          disp := Disp.skipped }
      let r := processLines all no_br rest (i + 1)
        { st with lines_to_skip := st.lines_to_skip - 1 }
      (e :: r.1, r.2)
    else
      let st0 := st0Of li st
      let cr := rewriteStep li.type li.content
      let c := cr.1
      let st1 := calcIndent all i li st0
      let nxt := all.getD (i + 1) dfltLine
      let hasNext := decide (i + 1 < all.length)
      if st1.traversing_code_block then
        let e : Entry :=
          { idx := i, line := li, rewritten := c, reqs := cr.2,
            trav := st1.traversing_code_block, target := st1.target_line_indent,
            disp := Disp.emitted (c.drop 2) }
        let st2 :=
          if li.hierarchy = LineHierarchy.parent then
            { st1 with last_target_line_indent := st1.target_line_indent }
          else st1
        let r := processLines all no_br rest (i + 1) st2
        (e :: r.1, r.2)
      else if li.type = LineType.text ∧ hasSubstr (str "collapsed:: true") c then
        let e : Entry :=
          { idx := i, line := li, rewritten := c, reqs := cr.2,
            trav := st1.traversing_code_block, target := st1.target_line_indent,
            disp := Disp.elided }
        let r := processLines all no_br rest (i + 1) st1
        (e :: r.1, r.2)
      else if li.type = LineType.text ∧ hasSubstr (str ":LOGBOOK:") c then
        let skips := if hasSubstr (str ":END:") c then 0 else 1 + skipCountAux rest
        let e : Entry :=
          { idx := i, line := li, rewritten := c, reqs := cr.2,
            trav := st1.traversing_code_block, target := st1.target_line_indent,
            disp := Disp.elided }
        let r := processLines all no_br rest (i + 1) { st1 with lines_to_skip := skips }
        (e :: r.1, r.2)
      else
        let bv := representLine no_br li c st1 nxt hasNext
        let e : Entry :=
          { idx := i, line := li, rewritten := c, reqs := cr.2,
            trav := st1.traversing_code_block, target := st1.target_line_indent,
            disp := Disp.emitted bv.1 }
        let st3 :=
          if li.hierarchy = LineHierarchy.parent then
            { bv.2 with last_target_line_indent := bv.2.target_line_indent }
          else bv.2
        let r := processLines all no_br rest (i + 1) st3
        (e :: r.1, r.2)

/-- Pass 2 over a classified document, from the initial counters. -/
def runLines (lines : List LineInfo) (no_br : Bool) : List Entry × St :=
  processLines lines no_br lines 0 initSt

/-- The whole conversion: classify every line (aborting at the first
failure, before anything is emitted or copied), then run pass 2. -/
def export_file_to_folder (doc : List (List Char)) (no_br : Bool) :
    Except PassErr (List Entry × St) :=
  match pass1 doc with
  | Except.error e => Except.error e
  | Except.ok lines => Except.ok (runLines lines no_br)

/-- The chunk one emitted line contributes to the output document:
`content = content + "\n"`, then the computed tabs are prepended
(`range` of a negative count is empty, hence `Int.toNat`). -/
def chunkOf (e : Entry) : List Char :=
  match e.disp with
  | Disp.emitted body => List.replicate e.target.toNat '\t' ++ (body ++ ['\n'])
  | _ => []

/-- The assembled output document (`output_content`). -/
def outputText (tr : List Entry) : List Char := (tr.map chunkOf).flatten

/-- All asset-materialize requests of a run, in order. -/
def tracedReqs (tr : List Entry) : List AssetReq := (tr.map (fun e => e.reqs)).flatten

/-- The trace of a run, when classification succeeded. -/
def exportTrace (doc : List (List Char)) (no_br : Bool) : Option (List Entry) :=
  match export_file_to_folder doc no_br with
  | Except.ok (tr, _) => some tr
  | Except.error _ => none

/-- The target indentation of every line of a run, in order. -/
def exportTargets (doc : List (List Char)) (no_br : Bool) : Option (List Int) :=
  (exportTrace doc no_br).map (fun tr => tr.map (fun e => e.target))

/-- The assembled output text of a run. -/
def exportText (doc : List (List Char)) (no_br : Bool) : Option (List Char) :=
  (exportTrace doc no_br).map outputText

/-- The asset requests of a run. -/
def exportReqs (doc : List (List Char)) (no_br : Bool) : Option (List AssetReq) :=
  (exportTrace doc no_br).map tracedReqs

/-! ## Claim-as-stated predicates

Bool-valued renderings of the spec claims that turn out to fail on the
code; each is refuted at a concrete document below and an amended version
is proved afterwards. -/

/-- C2 as stated: while the code-block toggle is true, every processed
line is rewritten only by dropping the first two characters of its
(original) content, with no asset / drawio / task-marker rewrite (hence
also no asset request). -/
def claim2Holds (doc : List (List Char)) (no_br : Bool) : Bool :=
  match export_file_to_folder doc no_br with
  | Except.error _ => true
  | Except.ok (tr, _) =>
    tr.all (fun e =>
      if e.disp ≠ Disp.skipped ∧ e.trav = true then
        decide (e.disp = Disp.emitted (e.line.content.drop 2)) && e.reqs.isEmpty
      else true)

/-- Predicate: `s` ends with exactly one newline: its last character is a newline and
the character before it (if any) is not. -/
def endsExactlyOneNewline (s : List Char) : Bool :=
  match s.reverse with
  | '\n' :: r => !(r.head? = some '\n' : Bool)
  | _ => false

/-- C4 as stated: every emitted chunk ends with exactly one newline, and
equals the computed tabs prepended to the rewritten body plus that
newline. -/
def claim4Holds (doc : List (List Char)) (no_br : Bool) : Bool :=
  match export_file_to_folder doc no_br with
  | Except.error _ => true
  | Except.ok (tr, _) =>
    tr.all (fun e =>
      match e.disp with
      | Disp.emitted body =>
        endsExactlyOneNewline (chunkOf e)
          && decide (chunkOf e = List.replicate e.target.toNat '\t' ++ (body ++ ['\n']))
      | _ => true)

/-- Index of the first line AFTER index `i` whose content contains
`:END:` (the claim's "first subsequent line containing `:END:`"). -/
def firstEndAfter (lines : List LineInfo) (i : Nat) : Option Nat :=
  ((List.range lines.length).filter
    (fun j => i < j && hasSubstr (str ":END:") ((lines.getD j dfltLine).content))).head?

/-- C8 as stated (containment read on the line's content as held at check
time, i.e. after the in-place rewrite chain): a Text line processed
outside a code block containing `collapsed:: true` or `:LOGBOOK:`
contributes zero output lines, as does — after a `:LOGBOOK:` line — every
line up to and including the first SUBSEQUENT line containing `:END:`
(all remaining lines when none does); every other line contributes
exactly one output line. -/
def claim8Holds (doc : List (List Char)) (no_br : Bool) : Bool :=
  match pass1 doc with
  | Except.error _ => true
  | Except.ok lines =>
    let tr := (runLines lines no_br).1
    let isElC : Entry → Bool := fun e =>
      decide (e.disp ≠ Disp.skipped) && !e.trav && decide (e.line.type = LineType.text)
        && hasSubstr (str "collapsed:: true") e.rewritten
    let isElL : Entry → Bool := fun e =>
      decide (e.disp ≠ Disp.skipped) && !e.trav && decide (e.line.type = LineType.text)
        && hasSubstr (str ":LOGBOOK:") e.rewritten
    let inBlock : Nat → Bool := fun k =>
      tr.any (fun e => isElL e && decide (e.idx < k) &&
        (match firstEndAfter lines e.idx with
         | some m => decide (k ≤ m)
         | none => true))
    tr.all (fun e =>
      if isElC e || isElL e || inBlock e.idx then !e.disp.emits else e.disp.emits)

/-- C9 as stated: when the number of lines CLASSIFIED `CodeBlockMarker` is
even, the code-block toggle is false again after the last line. -/
def claim9Holds (doc : List (List Char)) (no_br : Bool) : Bool :=
  match export_file_to_folder doc no_br with
  | Except.error _ => true
  | Except.ok (tr, fin) =>
    if (tr.countP (fun e => decide (e.line.type = LineType.codeBlockMarker))) % 2 = 0 then
      fin.traversing_code_block = false
    else true

/-! ## C1 -/

/-- C1: on the three-line document `- A / \t- B / \t\t- C` the code does
NOT produce target indents `0, 0, 1`: it produces `0, 0, 0`.  At `i = 0`
the indentation block compares `lines[0]` against `lines[i-1] = lines[-1]`
(Python negative indexing wraps to the LAST line, of raw indent 2), takes
the "decreased" branch and starts `cur_list_depth` at `-1`, so the third
line reaches depth 1 instead of 2 and no tab is ever added.  This
contradicts the spec's §4.3 rule ("per line i, after the first") and the
source's own comment that only the first nesting level is unindented. -/
theorem c1_minimal_nested_list_targets :
    exportTargets [str "- A", str "\t- B", str "\t\t- C"] false = some [0, 0, 0] ∧
      exportTargets [str "- A", str "\t- B", str "\t\t- C"] false ≠ some [0, 0, 1] := by
  constructor
  · decide
  · decide

/-! ## C5 -/

/-- C5: the task-marker rewrites are exact, glyphs emitted as numeric
character references: `- TODO buy milk` becomes `- **&#x2610; TODO** buy
milk`, `- DONE call mom` becomes `- **&#x2611;** ~~call mom~~`, and the
analogous mappings hold for DOING, LATER and NOW.  (A line's content never
begins with a tab — pass 1 strips leading tabs — so the regex's captured
tab prefix is preserved trivially.)  No asset request is made. -/
theorem c5_task_marker_rewrites :
    rewriteContent (str "- TODO buy milk") = (str "- **&#x2610; TODO** buy milk", []) ∧
    rewriteContent (str "- DONE call mom") = (str "- **&#x2611;** ~~call mom~~", []) ∧
    rewriteContent (str "- DOING see doc") = (str "- **&#x231B; DOING** see doc", []) ∧
    rewriteContent (str "- LATER see doc") = (str "- **&#x23F2; LATER** see doc", []) ∧
    rewriteContent (str "- NOW see doc") = (str "- **&#x23F0; NOW** see doc", []) := by
  refine ⟨?_, ?_, ?_, ?_, ?_⟩ <;> decide

/-! ## C6 -/

/-- C6: a line whose content is `![x](../assets/img.png)` is rewritten to
`![x](assets/img.png)` and requests exactly one asset materialization,
for `img.png` with the (default) empty subdir — both at the rewrite chain
itself and across a whole run on the one-line document. -/
theorem c6_asset_rewrite :
    rewriteContent (str "![x](../assets/img.png)")
        = (str "![x](assets/img.png)", [{ filename := str "img.png", subdir := [] }]) ∧
      exportReqs [str "![x](../assets/img.png)"] false
        = some [{ filename := str "img.png", subdir := [] }] := by
  constructor
  · decide
  · decide

/-! ## Counterexamples -/

/-- C2 fails as stated: the rewrite chain runs BEFORE the code-block
check, so a line between fence markers is still rewritten.  In the
document `- ``` / - TODO x / - ``` ` the middle line is processed with
the toggle true, yet emits `**&#x2610; TODO** x` (the task rewrite fired
and then two characters were stripped) instead of the verbatim
`TODO x`. -/
theorem c2_code_block_rewrite_counterexample :
    claim2Holds [str "- ```", str "- TODO x", str "- ```"] false = false := by
  decide

/-- C4 fails as stated: an Empty line (a bare `-` bullet) emits the body
`<br>\n`, and the loop then appends its own newline, so the emitted chunk
is `<br>\n\n` — it ends with two newlines, not exactly one. -/
theorem c4_newline_counterexample :
    claim4Holds [str "-"] false = false := by
  decide

/-- C8 fails as stated: the `:LOGBOOK:` scan starts AT the `:LOGBOOK:`
line itself, so when that line also contains `:END:` nothing after it is
dropped.  In the document `  :LOGBOOK: :END: / - A` no SUBSEQUENT line
contains `:END:`, so the claim says `- A` is inside the elided block and
contributes zero output lines, but the code emits it. -/
theorem c8_elision_counterexample :
    claim8Holds [str "  :LOGBOOK: :END:", str "- A"] false = false := by
  decide

/-- C9 fails as stated: a fence marker elided by a `:LOGBOOK:` skip never
toggles the tracker.  The document
`  :LOGBOOK: / - ``` / :END: / - ``` ` has two classified
CodeBlockMarker lines (an even count), but the first one is consumed by
the metadata skip, so only the last marker toggles and the tracker ends
true. -/
theorem c9_even_fence_counterexample :
    claim9Holds [str "  :LOGBOOK:", str "- ```", str "  :END:", str "- ```"] false = false := by
  decide

/-! ## Helper lemmas about the indentation block -/

/-- Lemma: `calcIndent` only ever changes `target_line_indent` and
`cur_list_depth`. -/
theorem calcIndent_shape (all : List LineInfo) (i : Nat) (li : LineInfo) (st : St) :
    calcIndent all i li st =
      { st with target_line_indent := (calcIndent all i li st).target_line_indent,
                cur_list_depth := (calcIndent all i li st).cur_list_depth } := by
  simp only [calcIndent]
  repeat' split
  all_goals rfl

/-- The code-block toggle is untouched by the indentation block. -/
theorem calcIndent_trav (all : List LineInfo) (i : Nat) (li : LineInfo) (st : St) :
    (calcIndent all i li st).traversing_code_block = st.traversing_code_block := by
  conv_lhs => rw [calcIndent_shape]

/-- The skip counter is untouched by the indentation block. -/
theorem calcIndent_skip (all : List LineInfo) (i : Nat) (li : LineInfo) (st : St) :
    (calcIndent all i li st).lines_to_skip = st.lines_to_skip := by
  conv_lhs => rw [calcIndent_shape]

/-- The depth baseline is untouched by the indentation block. -/
theorem calcIndent_last (all : List LineInfo) (i : Nat) (li : LineInfo) (st : St) :
    (calcIndent all i li st).last_target_line_indent = st.last_target_line_indent := by
  conv_lhs => rw [calcIndent_shape]

/-- All assignments of the indentation block keep the target non-negative:
it is set to `0`, to the (non-negative) baseline, to the baseline plus
one, or to a `max` with `0`. -/
theorem calcIndent_target_nonneg (all : List LineInfo) (i : Nat) (li : LineInfo) (st : St)
    (h1 : 0 ≤ st.target_line_indent) (h2 : 0 ≤ st.last_target_line_indent) :
    0 ≤ (calcIndent all i li st).target_line_indent := by
  simp only [calcIndent]
  repeat' split
  all_goals simp_all
  all_goals omega

/-- A title line, or any line whose predecessor `lines[i-1]` (with `i ≥ 1`)
is a title, gets target `0`: the guard of the delta comparison is false
for it, so the forced `0` survives. -/
theorem calcIndent_title (all : List LineInfo) (i : Nat) (li : LineInfo) (st : St)
    (h : li.type = LineType.title ∨
      (1 ≤ i ∧ (all.getD (i - 1) dfltLine).type = LineType.title)) :
    (calcIndent all i li st).target_line_indent = 0 := by
  have hprev : li.type = LineType.title ∨ (pyPrev all i).type = LineType.title := by
    rcases h with h | ⟨hi, hp⟩
    · exact Or.inl h
    · refine Or.inr ?_
      have : i ≠ 0 := by omega
      simpa [pyPrev, this, List.getD] using hp
  simp only [calcIndent]
  repeat' split
  all_goals simp_all

/-! ## One-step decomposition of the loop

To reason about `processLines` by induction we isolate what one iteration
does: the entry it prepends (`stepEntry`) and the counters it passes on
(`stepSt`).  Both replicate the corresponding pieces of `processLines`,
and `processLines_cons` proves the decomposition. -/

/-- The trace entry produced for the line `li` at index `i`. -/
def stepEntry (all : List LineInfo) (no_br : Bool) (li : LineInfo)
    (rest : List LineInfo) (i : Nat) (st : St) : Entry :=
  if st.lines_to_skip > 0 then
    { idx := i, line := li, rewritten := li.content, reqs := [],
      trav := st.traversing_code_block, target := st.target_line_indent,
      disp := Disp.skipped }
  else
    let st0 := st0Of li st
    let cr := rewriteStep li.type li.content
    let c := cr.1
    let st1 := calcIndent all i li st0
    let nxt := all.getD (i + 1) dfltLine
    let hasNext := decide (i + 1 < all.length)
    if st1.traversing_code_block then
      { idx := i, line := li, rewritten := c, reqs := cr.2,
        trav := st1.traversing_code_block, target := st1.target_line_indent,
        disp := Disp.emitted (c.drop 2) }
    else if li.type = LineType.text ∧ hasSubstr (str "collapsed:: true") c then
      { idx := i, line := li, rewritten := c, reqs := cr.2,
        trav := st1.traversing_code_block, target := st1.target_line_indent,
        disp := Disp.elided }
    else if li.type = LineType.text ∧ hasSubstr (str ":LOGBOOK:") c then
      { idx := i, line := li, rewritten := c, reqs := cr.2,
        trav := st1.traversing_code_block, target := st1.target_line_indent,
        disp := Disp.elided }
    else
      { idx := i, line := li, rewritten := c, reqs := cr.2,
        trav := st1.traversing_code_block, target := st1.target_line_indent,
        disp := Disp.emitted (representLine no_br li c st1 nxt hasNext).1 }

/-- The counters passed on after processing the line `li` at index `i`. -/
def stepSt (all : List LineInfo) (no_br : Bool) (li : LineInfo)
    (rest : List LineInfo) (i : Nat) (st : St) : St :=
  if st.lines_to_skip > 0 then
    { st with lines_to_skip := st.lines_to_skip - 1 }
  else
    let st0 := st0Of li st
    let cr := rewriteStep li.type li.content
    let c := cr.1
    let st1 := calcIndent all i li st0
    let nxt := all.getD (i + 1) dfltLine
    let hasNext := decide (i + 1 < all.length)
    if st1.traversing_code_block then
      if li.hierarchy = LineHierarchy.parent then
        { st1 with last_target_line_indent := st1.target_line_indent }
      else st1
    else if li.type = LineType.text ∧ hasSubstr (str "collapsed:: true") c then st1
    else if li.type = LineType.text ∧ hasSubstr (str ":LOGBOOK:") c then
      { st1 with lines_to_skip :=
          if hasSubstr (str ":END:") c then 0 else 1 + skipCountAux rest }
    else
      let bv := representLine no_br li c st1 nxt hasNext
      if li.hierarchy = LineHierarchy.parent then
        { bv.2 with last_target_line_indent := bv.2.target_line_indent }
      else bv.2

/-- One iteration of the loop, decomposed. -/
theorem processLines_cons (all : List LineInfo) (no_br : Bool) (li : LineInfo)
    (rest : List LineInfo) (i : Nat) (st : St) :
    processLines all no_br (li :: rest) i st
      = (stepEntry all no_br li rest i st
           :: (processLines all no_br rest (i + 1) (stepSt all no_br li rest i st)).1,
         (processLines all no_br rest (i + 1) (stepSt all no_br li rest i st)).2) := by
  by_cases h0 : st.lines_to_skip > 0
  · simp only [processLines, stepEntry, stepSt, if_pos h0]
  · simp only [processLines, stepEntry, stepSt, if_neg h0]
    by_cases h1 : (calcIndent all i li (st0Of li st)).traversing_code_block = true
    · simp only [if_pos h1]
    · simp only [if_neg h1]
      by_cases h2 : li.type = LineType.text
          ∧ hasSubstr (str "collapsed:: true") (rewriteStep li.type li.content).1
      · simp only [if_pos h2]
      · simp only [if_neg h2]
        by_cases h3 : li.type = LineType.text
            ∧ hasSubstr (str ":LOGBOOK:") (rewriteStep li.type li.content).1
        · simp only [if_pos h3]
        · simp only [if_neg h3]

/-- Lemma: `st0Of` only ever flips the toggle: the target is untouched. -/
theorem st0Of_target (li : LineInfo) (st : St) :
    (st0Of li st).target_line_indent = st.target_line_indent := by
  simp only [st0Of]
  split
  all_goals rfl

/-- Lemma: `st0Of` leaves the baseline untouched. -/
theorem st0Of_last (li : LineInfo) (st : St) :
    (st0Of li st).last_target_line_indent = st.last_target_line_indent := by
  simp only [st0Of]
  split
  all_goals rfl

/-- Lemma: `st0Of` leaves the skip counter untouched. -/
theorem st0Of_skip (li : LineInfo) (st : St) :
    (st0Of li st).lines_to_skip = st.lines_to_skip := by
  simp only [st0Of]
  split
  all_goals rfl

/-- Lemma: `st0Of` leaves the list depth untouched. -/
theorem st0Of_depth (li : LineInfo) (st : St) :
    (st0Of li st).cur_list_depth = st.cur_list_depth := by
  simp only [st0Of]
  split
  all_goals rfl

/-- The representation chain only ever changes `cur_list_depth` of the
counters (a title resets it; every other kind keeps them whole). -/
theorem representLine_shape (no_br : Bool) (li : LineInfo) (c : List Char) (st1 : St)
    (nxt : LineInfo) (hasNext : Bool) :
    ∃ d, (representLine no_br li c st1 nxt hasNext).2 = { st1 with cur_list_depth := d } := by
  simp only [representLine]
  cases li.type
  all_goals first
    | exact ⟨0, rfl⟩
    | exact ⟨st1.cur_list_depth, rfl⟩

/-- Every entry records its own index. -/
theorem stepEntry_idx (all : List LineInfo) (no_br : Bool) (li : LineInfo)
    (rest : List LineInfo) (i : Nat) (st : St) :
    (stepEntry all no_br li rest i st).idx = i := by
  simp only [stepEntry]
  repeat' split
  all_goals rfl

/-- Every entry records its own classified line. -/
theorem stepEntry_line (all : List LineInfo) (no_br : Bool) (li : LineInfo)
    (rest : List LineInfo) (i : Nat) (st : St) :
    (stepEntry all no_br li rest i st).line = li := by
  simp only [stepEntry]
  repeat' split
  all_goals rfl

/-- A consumed (`lines_to_skip`) iteration: entry and passed-on state. -/
theorem step_skip (all : List LineInfo) (no_br : Bool) (li : LineInfo)
    (rest : List LineInfo) (i : Nat) (st : St) (h : st.lines_to_skip > 0) :
    stepEntry all no_br li rest i st
        = { idx := i, line := li, rewritten := li.content, reqs := [],
            trav := st.traversing_code_block, target := st.target_line_indent,
            disp := Disp.skipped } ∧
      stepSt all no_br li rest i st = { st with lines_to_skip := st.lines_to_skip - 1 } := by
  constructor
  · simp only [stepEntry, if_pos h]
  · simp only [stepSt, if_pos h]

/-- A processed iteration records the post-toggle flag, the computed
target, the rewritten content and the rewrite chain's asset requests. -/
theorem stepEntry_processed (all : List LineInfo) (no_br : Bool) (li : LineInfo)
    (rest : List LineInfo) (i : Nat) (st : St) (h : ¬ st.lines_to_skip > 0) :
    (stepEntry all no_br li rest i st).trav = (st0Of li st).traversing_code_block ∧
      (stepEntry all no_br li rest i st).target
        = (calcIndent all i li (st0Of li st)).target_line_indent ∧
      (stepEntry all no_br li rest i st).rewritten = (rewriteStep li.type li.content).1 ∧
      (stepEntry all no_br li rest i st).reqs = (rewriteStep li.type li.content).2 := by
  simp only [stepEntry, if_neg h]
  repeat' split
  all_goals simp [calcIndent_trav]

/-- A processed iteration passes on the post-toggle flag and the computed
target, and can change the baseline only to that target. -/
theorem stepSt_processed (all : List LineInfo) (no_br : Bool) (li : LineInfo)
    (rest : List LineInfo) (i : Nat) (st : St) (h : ¬ st.lines_to_skip > 0) :
    (stepSt all no_br li rest i st).traversing_code_block
        = (st0Of li st).traversing_code_block ∧
      (stepSt all no_br li rest i st).target_line_indent
        = (calcIndent all i li (st0Of li st)).target_line_indent ∧
      ((stepSt all no_br li rest i st).last_target_line_indent
          = (calcIndent all i li (st0Of li st)).target_line_indent ∨
        (stepSt all no_br li rest i st).last_target_line_indent
          = st.last_target_line_indent) := by
  obtain ⟨d, hd⟩ := representLine_shape no_br li (rewriteStep li.type li.content).1
    (calcIndent all i li (st0Of li st)) (all.getD (i + 1) dfltLine)
    (decide (i + 1 < all.length))
  simp only [stepSt, if_neg h]
  repeat' split
  all_goals try rw [hd]
  all_goals simp [calcIndent_trav, calcIndent_last, st0Of_last]

/-- The toggle as seen after `st0Of`, in conditional form. -/
theorem st0Of_trav (li : LineInfo) (st : St) :
    (st0Of li st).traversing_code_block
      = (if li.type = LineType.codeBlockMarker then !st.traversing_code_block
         else st.traversing_code_block) := by
  simp only [st0Of]
  split
  all_goals rfl

/-- A processed line is never recorded as skipped. -/
theorem stepEntry_not_skipped (all : List LineInfo) (no_br : Bool) (li : LineInfo)
    (rest : List LineInfo) (i : Nat) (st : St) (h : ¬ st.lines_to_skip > 0) :
    (stepEntry all no_br li rest i st).disp ≠ Disp.skipped := by
  simp only [stepEntry, if_neg h]
  repeat' split
  all_goals simp

/-! ## Trace structure lemmas -/

/-- Pass 2 produces exactly one trace entry per input line, in input
order: the indices are `i, i+1, ...` down the remaining lines. -/
theorem processLines_idx (all : List LineInfo) (no_br : Bool) :
    ∀ (rem : List LineInfo) (i : Nat) (st : St),
      (processLines all no_br rem i st).1.map (fun e => e.idx)
        = List.range' i rem.length := by
  intro rem
  induction rem with
  | nil => intro i st; simp [processLines]
  | cons li rest ih =>
    intro i st
    rw [processLines_cons]
    simp [stepEntry_idx, ih, List.range'_succ]

/-- Spec model for the amended C8.  Which input lines contribute one
output chunk, as the amended claim words it: a consumed line contributes
nothing; inside a code block (after the marker's own toggle) every line
contributes one chunk; a Text line whose content (after the rewrite
chain) contains `collapsed:: true` contributes nothing; a Text line whose
content contains `:LOGBOOK:` contributes nothing and additionally
consumes the following lines up to and including the first subsequent
line containing `:END:` — all remaining lines when none does (the counter
`1 + skipCountAux rest` then exceeds the remaining length, which consumes
them all); every other line contributes exactly one chunk. -/
def specEmits : List LineInfo → Bool → Nat → List Bool
  | [], _, _ => []
  | l :: rest, trav, skip =>
    if skip > 0 then false :: specEmits rest trav (skip - 1)
    else
      let trav' := if l.type = LineType.codeBlockMarker then !trav else trav
      let c := (rewriteStep l.type l.content).1
      if trav' then true :: specEmits rest trav' 0
      else if l.type = LineType.text ∧ hasSubstr (str "collapsed:: true") c then
        false :: specEmits rest trav' 0
      else if l.type = LineType.text ∧ hasSubstr (str ":LOGBOOK:") c then
        false :: specEmits rest trav'
          (if hasSubstr (str ":END:") c then 0 else 1 + skipCountAux rest)
      else true :: specEmits rest trav' 0

/-- The machine's emission pattern is exactly the spec walk. -/
theorem processLines_emits (all : List LineInfo) (no_br : Bool) :
    ∀ (rem : List LineInfo) (i : Nat) (st : St),
      (processLines all no_br rem i st).1.map (fun e => e.disp.emits)
        = specEmits rem st.traversing_code_block st.lines_to_skip := by
  intro rem
  induction rem with
  | nil => intro i st; simp [processLines, specEmits]
  | cons li rest ih =>
    intro i st
    rw [processLines_cons]
    simp only [List.map_cons]
    rw [ih]
    by_cases h0 : st.lines_to_skip > 0
    · obtain ⟨hE, hS⟩ := step_skip all no_br li rest i st h0
      rw [hE, hS]
      simp [specEmits, h0, Disp.emits]
    · have hz : st.lines_to_skip = 0 := by omega
      have hTrv := (stepSt_processed all no_br li rest i st h0).1
      by_cases h1 : (calcIndent all i li (st0Of li st)).traversing_code_block = true
      · have hD : (stepEntry all no_br li rest i st).disp
            = Disp.emitted ((rewriteStep li.type li.content).1.drop 2) := by
          simp only [stepEntry, if_neg h0, h1]
          simp
        have hSk : (stepSt all no_br li rest i st).lines_to_skip = 0 := by
          simp only [stepSt, if_neg h0, h1]
          simp only [if_true]
          split
          all_goals simp [calcIndent_skip, st0Of_skip, hz]
        rw [hD, hTrv, hSk]
        have h1' : (st0Of li st).traversing_code_block = true := by
          rw [← calcIndent_trav all i li (st0Of li st)]
          exact h1
        simp [specEmits, hz, Disp.emits, st0Of_trav li st] at h1' ⊢
        rw [if_pos h1']
      · have h1' : (st0Of li st).traversing_code_block = false := by
          rw [← calcIndent_trav all i li (st0Of li st)]
          simpa using h1
        by_cases h2 : li.type = LineType.text
            ∧ hasSubstr (str "collapsed:: true") (rewriteStep li.type li.content).1 = true
        · have hD : (stepEntry all no_br li rest i st).disp = Disp.elided := by
            simp only [stepEntry, if_neg h0, if_neg h1, if_pos h2]
          have hSk : (stepSt all no_br li rest i st).lines_to_skip = 0 := by
            simp only [stepSt, if_neg h0, if_neg h1, if_pos h2]
            simp [calcIndent_skip, st0Of_skip, hz]
          rw [hD, hTrv, hSk]
          simp only [specEmits, hz, Disp.emits]
          rw [← st0Of_trav li st]
          simp [h1', h2]
          have hc2 : hasSubstr (str "collapsed:: true")
              (rewriteStep LineType.text li.content).1 = true := by
            have hx := h2.2
            rwa [h2.1] at hx
          rw [if_pos hc2]
        · by_cases h3 : li.type = LineType.text
              ∧ hasSubstr (str ":LOGBOOK:") (rewriteStep li.type li.content).1 = true
          · have hD : (stepEntry all no_br li rest i st).disp = Disp.elided := by
              simp only [stepEntry, if_neg h0, if_neg h1, if_neg h2, if_pos h3]
            have hSk : (stepSt all no_br li rest i st).lines_to_skip =
                (if hasSubstr (str ":END:") (rewriteStep li.type li.content).1 then 0
                 else 1 + skipCountAux rest) := by
              simp only [stepSt, if_neg h0, if_neg h1, if_neg h2, if_pos h3]
            rw [hD, hTrv, hSk]
            simp only [specEmits, hz, Disp.emits]
            rw [← st0Of_trav li st]
            simp [h1', h2, h3]
            have hl3 : hasSubstr (str ":LOGBOOK:")
                (rewriteStep LineType.text li.content).1 = true := by
              have hx := h3.2
              rwa [h3.1] at hx
            have hc2 : ¬ hasSubstr (str "collapsed:: true")
                (rewriteStep LineType.text li.content).1 = true := by
              intro hx
              exact h2 ⟨h3.1, by rw [h3.1]; exact hx⟩
            rw [if_neg hc2, if_pos hl3]
          · have hD : (stepEntry all no_br li rest i st).disp
                = Disp.emitted ((representLine no_br li (rewriteStep li.type li.content).1
                    (calcIndent all i li (st0Of li st)) (all.getD (i + 1) dfltLine)
                    (decide (i + 1 < all.length))).1) := by
              simp only [stepEntry, if_neg h0, if_neg h1, if_neg h2, if_neg h3]
            have hSk : (stepSt all no_br li rest i st).lines_to_skip = 0 := by
              obtain ⟨d, hd⟩ := representLine_shape no_br li (rewriteStep li.type li.content).1
                (calcIndent all i li (st0Of li st)) (all.getD (i + 1) dfltLine)
                (decide (i + 1 < all.length))
              simp only [stepSt, if_neg h0, if_neg h1, if_neg h2, if_neg h3]
              split
              all_goals rw [hd]
              all_goals simp [calcIndent_skip, st0Of_skip, hz]
            rw [hD, hTrv, hSk]
            simp only [specEmits, hz, Disp.emits]
            rw [← st0Of_trav li st]
            simp [h1', h2, h3]

/-- C8 (amended): pass 2 yields exactly one trace entry per input line, in
input order, and a line contributes one output chunk exactly as described
by the spec walk `specEmits`: a Text line processed outside a code block
whose content (after the in-place rewrite chain) contains
`collapsed:: true` or `:LOGBOOK:` contributes zero chunks; after such a
`:LOGBOOK:` line, the scan for `:END:` starts at that line itself — if its
own content contains `:END:` nothing further is dropped, otherwise all
following lines up to and including the first subsequent line containing
`:END:` (all remaining lines if none does) contribute zero chunks; every
other line contributes exactly one chunk. -/
theorem c8_elision_amended :
    ∀ (doc : List (List Char)) (no_br : Bool) (lines : List LineInfo),
      pass1 doc = Except.ok lines →
      (runLines lines no_br).1.map (fun e => e.idx) = List.range lines.length ∧
        (runLines lines no_br).1.map (fun e => e.disp.emits) = specEmits lines false 0 := by
  intro doc no_br lines _
  constructor
  · rw [runLines, processLines_idx lines no_br lines 0 initSt, List.range_eq_range']
  · have h := processLines_emits lines no_br lines 0 initSt
    simpa [runLines, initSt] using h

/-- The classified lines of the document used to witness the amended C8. -/
def linesLogbook : List LineInfo :=
  [{ content := str "  :LOGBOOK:", indent := 0,
     type := LineType.text, hierarchy := LineHierarchy.child },
   { content := str "- a", indent := 0,
     type := LineType.list, hierarchy := LineHierarchy.parent },
   { content := str "  :END:", indent := 0,
     type := LineType.text, hierarchy := LineHierarchy.child },
   { content := str "- b", indent := 0,
     type := LineType.list, hierarchy := LineHierarchy.parent }]

/-- Witness for the amended C8, on the document
`  :LOGBOOK: / - a / :END: / - b`: the first three lines contribute
nothing, the fourth one chunk. -/
theorem c8_elision_amended_witness :
    (runLines linesLogbook false).1.map (fun e => e.idx) = List.range linesLogbook.length ∧
      (runLines linesLogbook false).1.map (fun e => e.disp.emits)
        = specEmits linesLogbook false 0 :=
  c8_elision_amended [str "  :LOGBOOK:", str "- a", str "  :END:", str "- b"]
    false linesLogbook (by rfl)

/-- A marker line that is actually processed (not consumed by a
`:LOGBOOK:` skip): exactly these flip the toggle. -/
def isProcessedMarker (e : Entry) : Bool :=
  decide (e.disp ≠ Disp.skipped) && decide (e.line.type = LineType.codeBlockMarker)

/-- The final toggle equals the initial one xor-ed with the parity of the
processed marker lines. -/
theorem processLines_toggle (all : List LineInfo) (no_br : Bool) :
    ∀ (rem : List LineInfo) (i : Nat) (st : St),
      (processLines all no_br rem i st).2.traversing_code_block
        = Bool.xor (((processLines all no_br rem i st).1.countP isProcessedMarker) % 2 == 1)
            st.traversing_code_block := by
  intro rem
  induction rem with
  | nil => intro i st; simp [processLines]
  | cons li rest ih =>
    intro i st
    rw [processLines_cons]
    by_cases h0 : st.lines_to_skip > 0
    · obtain ⟨hE, hS⟩ := step_skip all no_br li rest i st h0
      have hpred : isProcessedMarker (stepEntry all no_br li rest i st) = false := by
        rw [hE]
        simp [isProcessedMarker]
      simp only [List.countP_cons, hpred, if_false]
      rw [ih, hS]
      simp
    · have hline := stepEntry_line all no_br li rest i st
      have hns := stepEntry_not_skipped all no_br li rest i st h0
      have hTrv := (stepSt_processed all no_br li rest i st h0).1
      by_cases hm : li.type = LineType.codeBlockMarker
      · have hpred : isProcessedMarker (stepEntry all no_br li rest i st) = true := by
          simp [isProcessedMarker, hline, hns, hm]
        have hflip : (st0Of li st).traversing_code_block = !st.traversing_code_block := by
          simp [st0Of, hm]
        simp only [List.countP_cons, hpred, if_true]
        rw [ih, hTrv, hflip]
        rcases Nat.mod_two_eq_zero_or_one
            ((processLines all no_br rest (i + 1) (stepSt all no_br li rest i st)).1.countP
              isProcessedMarker) with hp | hp
        · simp [Nat.add_mod, hp]
        · simp [Nat.add_mod, hp]
      · have hpred : isProcessedMarker (stepEntry all no_br li rest i st) = false := by
          simp [isProcessedMarker, hline, hm]
        have hsame : (st0Of li st).traversing_code_block = st.traversing_code_block := by
          simp [st0Of, hm]
        simp only [List.countP_cons, hpred, if_false]
        rw [ih, hTrv, hsame]
        simp

/-- C9 (amended): when the number of CodeBlockMarker lines that are
actually PROCESSED (not consumed by a `:LOGBOOK:` metadata skip) is even,
the code-block toggle is false again after the last line. -/
theorem c9_even_fence_amended :
    ∀ (doc : List (List Char)) (no_br : Bool) (lines : List LineInfo),
      pass1 doc = Except.ok lines →
      ((runLines lines no_br).1.countP isProcessedMarker) % 2 = 0 →
      (runLines lines no_br).2.traversing_code_block = false := by
  intro doc no_br lines _ hcnt
  have h := processLines_toggle lines no_br lines 0 initSt
  rw [runLines] at hcnt ⊢
  rw [h, hcnt]
  simp [initSt]

/-- The classified lines of the two-fence document witnessing the amended
C9. -/
def linesFences : List LineInfo :=
  [{ content := str "- ```", indent := 0,
     type := LineType.codeBlockMarker, hierarchy := LineHierarchy.parent },
   { content := str "- ```", indent := 0,
     type := LineType.codeBlockMarker, hierarchy := LineHierarchy.parent }]

/-- Witness for the amended C9: a document that is just an opening and a
closing fence has two processed markers and ends with the toggle off. -/
theorem c9_even_fence_amended_witness :
    (runLines linesFences false).2.traversing_code_block = false :=
  c9_even_fence_amended [str "- ```", str "- ```"] false linesFences (by rfl) (by decide)

/-- While the toggle is on at a line's processing point, that line is
emitted as its post-rewrite content minus its first two characters. -/
theorem processLines_codeblock_verbatim (all : List LineInfo) (no_br : Bool) :
    ∀ (rem : List LineInfo) (i : Nat) (st : St),
      ∀ e ∈ (processLines all no_br rem i st).1,
        e.disp ≠ Disp.skipped → e.trav = true →
        e.disp = Disp.emitted ((rewriteStep e.line.type e.line.content).1.drop 2) := by
  intro rem
  induction rem with
  | nil => intro i st e he; simp [processLines] at he
  | cons li rest ih =>
    intro i st e he hd ht
    rw [processLines_cons] at he
    simp only [List.mem_cons] at he
    rcases he with rfl | he'
    · by_cases h0 : st.lines_to_skip > 0
      · obtain ⟨hE, _⟩ := step_skip all no_br li rest i st h0
        rw [hE] at hd
        simp at hd
      · have hline := stepEntry_line all no_br li rest i st
        have h1 : (calcIndent all i li (st0Of li st)).traversing_code_block = true := by
          rw [calcIndent_trav]
          rw [← (stepEntry_processed all no_br li rest i st h0).1]
          exact ht
        have hD : (stepEntry all no_br li rest i st).disp
            = Disp.emitted ((rewriteStep li.type li.content).1.drop 2) := by
          simp only [stepEntry, if_neg h0, h1]
          simp
        rw [hline, hD]
    · exact ih (i + 1) (stepSt all no_br li rest i st) e he' hd ht

/-- C2 (amended): while the code-block toggle is true, a processed line is
emitted by stripping the first two characters of its CURRENT content —
current because the in-place rewrite chain (asset, drawio and task-marker
rewrites, with their asset requests) runs BEFORE the code-block check and
therefore still applies between fence markers; only the kind-specific
representation and elision rules are bypassed. -/
theorem c2_code_block_verbatim_amended :
    ∀ (doc : List (List Char)) (no_br : Bool) (lines : List LineInfo),
      pass1 doc = Except.ok lines →
      ∀ e ∈ (runLines lines no_br).1,
        e.disp ≠ Disp.skipped → e.trav = true →
        e.disp = Disp.emitted ((rewriteStep e.line.type e.line.content).1.drop 2) := by
  intro doc no_br lines _ e he hd ht
  exact processLines_codeblock_verbatim lines no_br lines 0 initSt e he hd ht

/-- The classified lines of the fenced document witnessing the amended
C2. -/
def linesFencedTodo : List LineInfo :=
  [{ content := str "- ```", indent := 0,
     type := LineType.codeBlockMarker, hierarchy := LineHierarchy.parent },
   { content := str "- TODO x", indent := 0,
     type := LineType.list, hierarchy := LineHierarchy.parent },
   { content := str "- ```", indent := 0,
     type := LineType.codeBlockMarker, hierarchy := LineHierarchy.parent }]

/-- Witness for the amended C2: in `- ``` / - TODO x / - ``` ` the middle
entry of the trace is processed with the toggle on and is emitted as its
rewritten content minus two characters. -/
theorem c2_code_block_verbatim_amended_witness :
    ((runLines linesFencedTodo false).1.getD 1
        { idx := 0, line := dfltLine, rewritten := [], reqs := [], trav := false,
          target := 0, disp := Disp.skipped }).disp
      = Disp.emitted ((rewriteStep ((runLines linesFencedTodo false).1.getD 1
          { idx := 0, line := dfltLine, rewritten := [], reqs := [], trav := false,
            target := 0, disp := Disp.skipped }).line.type
        ((runLines linesFencedTodo false).1.getD 1
          { idx := 0, line := dfltLine, rewritten := [], reqs := [], trav := false,
            target := 0, disp := Disp.skipped }).line.content).1.drop 2) :=
  c2_code_block_verbatim_amended [str "- ```", str "- TODO x", str "- ```"] false
    linesFencedTodo (by rfl) _ (by decide) (by decide) (by decide)

/-- Target-indent invariant of pass 2: starting from non-negative
counters, every trace entry records a non-negative target, and a
processed title line — or a processed line whose predecessor is a
title — records target `0`. -/
theorem processLines_target_inv (all : List LineInfo) (no_br : Bool) :
    ∀ (rem : List LineInfo) (i : Nat) (st : St),
      0 ≤ st.target_line_indent → 0 ≤ st.last_target_line_indent →
      ∀ e ∈ (processLines all no_br rem i st).1,
        0 ≤ e.target ∧
          (e.disp ≠ Disp.skipped →
            (e.line.type = LineType.title ∨
              (1 ≤ e.idx ∧ (all.getD (e.idx - 1) dfltLine).type = LineType.title)) →
            e.target = 0) := by
  intro rem
  induction rem with
  | nil => intro i st h1 h2 e he; simp [processLines] at he
  | cons li rest ih =>
    intro i st h1 h2 e he
    rw [processLines_cons] at he
    simp only [List.mem_cons] at he
    rcases he with rfl | he'
    · by_cases h0 : st.lines_to_skip > 0
      · obtain ⟨hE, _⟩ := step_skip all no_br li rest i st h0
        rw [hE]
        refine ⟨h1, ?_⟩
        intro hd
        simp at hd
      · obtain ⟨_, hTgt, _, _⟩ := stepEntry_processed all no_br li rest i st h0
        have hline := stepEntry_line all no_br li rest i st
        have hidx := stepEntry_idx all no_br li rest i st
        constructor
        · rw [hTgt]
          exact calcIndent_target_nonneg all i li (st0Of li st)
            (by rw [st0Of_target]; exact h1) (by rw [st0Of_last]; exact h2)
        · intro _ hcond
          rw [hline, hidx] at hcond
          rw [hTgt]
          exact calcIndent_title all i li (st0Of li st) hcond
    · by_cases h0 : st.lines_to_skip > 0
      · obtain ⟨_, hS⟩ := step_skip all no_br li rest i st h0
        rw [hS] at he'
        exact ih (i + 1) { st with lines_to_skip := st.lines_to_skip - 1 } h1 h2 e he'
      · obtain ⟨_, hTgt, hLast⟩ := stepSt_processed all no_br li rest i st h0
        have hTgt0 : 0 ≤ (stepSt all no_br li rest i st).target_line_indent := by
          rw [hTgt]
          exact calcIndent_target_nonneg all i li (st0Of li st)
            (by rw [st0Of_target]; exact h1) (by rw [st0Of_last]; exact h2)
        have hLast0 : 0 ≤ (stepSt all no_br li rest i st).last_target_line_indent := by
          rcases hLast with hL | hL
          · rw [hL]
            exact calcIndent_target_nonneg all i li (st0Of li st)
              (by rw [st0Of_target]; exact h1) (by rw [st0Of_last]; exact h2)
          · rw [hL]
            exact h2
        exact ih (i + 1) _ hTgt0 hLast0 e he'

/-- C3: for every input document, every trace entry's recorded target
indentation is non-negative; and every processed line that is a Title, or
whose predecessor `lines[i-1]` is a Title, receives target exactly 0
(a line consumed by a metadata skip receives no indentation at all and
carries the stale counter in its trace record). -/
theorem c3_target_indent_invariant :
    ∀ (doc : List (List Char)) (no_br : Bool) (lines : List LineInfo),
      pass1 doc = Except.ok lines →
      ∀ e ∈ (runLines lines no_br).1,
        0 ≤ e.target ∧
          (e.disp ≠ Disp.skipped →
            (e.line.type = LineType.title ∨
              (1 ≤ e.idx ∧ (lines.getD (e.idx - 1) dfltLine).type = LineType.title)) →
            e.target = 0) := by
  intro doc no_br lines _ e he
  exact processLines_target_inv lines no_br lines 0 initSt
    (by simp [initSt]) (by simp [initSt]) e he

/-- The classified lines of the title document witnessing C3. -/
def linesTitled : List LineInfo :=
  [{ content := str "# T", indent := 0,
     type := LineType.title, hierarchy := LineHierarchy.parent },
   { content := str "- a", indent := 1,
     type := LineType.list, hierarchy := LineHierarchy.parent }]

/-- Witness for C3 on `# T / \t- a`: the entry after the title has a
non-negative target which the title condition forces to 0. -/
theorem c3_target_indent_invariant_witness :
    0 ≤ ((runLines linesTitled false).1.getD 1
        { idx := 0, line := dfltLine, rewritten := [], reqs := [], trav := false,
          target := 0, disp := Disp.skipped }).target ∧
      (((runLines linesTitled false).1.getD 1
          { idx := 0, line := dfltLine, rewritten := [], reqs := [], trav := false,
            target := 0, disp := Disp.skipped }).disp ≠ Disp.skipped →
        (((runLines linesTitled false).1.getD 1
            { idx := 0, line := dfltLine, rewritten := [], reqs := [], trav := false,
              target := 0, disp := Disp.skipped }).line.type = LineType.title ∨
          (1 ≤ ((runLines linesTitled false).1.getD 1
              { idx := 0, line := dfltLine, rewritten := [], reqs := [], trav := false,
                target := 0, disp := Disp.skipped }).idx ∧
            (linesTitled.getD (((runLines linesTitled false).1.getD 1
                { idx := 0, line := dfltLine, rewritten := [], reqs := [], trav := false,
                  target := 0, disp := Disp.skipped }).idx - 1)
              dfltLine).type = LineType.title)) →
        ((runLines linesTitled false).1.getD 1
            { idx := 0, line := dfltLine, rewritten := [], reqs := [], trav := false,
              target := 0, disp := Disp.skipped }).target = 0) :=
  c3_target_indent_invariant [str "# T", str "\t- a"] false linesTitled (by rfl)
    _ (by decide)

/-- C4 (amended): every emitted chunk is the computed indentation tabs,
prepended AFTER all content rewriting to the fully rewritten body, plus
the single newline the loop appends; the chunk therefore always ENDS in a
newline — but in at least one, not exactly one: the body itself may end
with a deliberately inserted newline (Empty lines, nested-list closings,
Text paragraph boundaries). -/
theorem c4_newline_amended :
    ∀ (doc : List (List Char)) (no_br : Bool) (lines : List LineInfo),
      pass1 doc = Except.ok lines →
      ∀ e ∈ (runLines lines no_br).1, ∀ body, e.disp = Disp.emitted body →
        chunkOf e = List.replicate e.target.toNat '\t' ++ (body ++ ['\n']) ∧
          (chunkOf e).getLast? = some '\n' := by
  intro doc no_br lines _ e _ body hb
  constructor
  · simp [chunkOf, hb]
  · simp only [chunkOf, hb]
    rw [← List.append_assoc, List.getLast?_concat]

/-- The classified line of the one-line bare-bullet document. -/
def lineDash : LineInfo :=
  { content := str "-", indent := 0, type := LineType.empty,
    hierarchy := LineHierarchy.parent }

/-- Fallback entry for (always-guarded) trace lookups. -/
def noEntry : Entry :=
  { idx := 0, line := dfltLine, rewritten := [], reqs := [], trav := false,
    target := 0, disp := Disp.skipped }

/-- Witness for the amended C4 on the one-line document `-`: its chunk is
`<br>` plus two newlines, which is tabs ++ body ++ newline and ends in a
newline. -/
theorem c4_newline_amended_witness :
    chunkOf ((runLines [lineDash] false).1.getD 0 noEntry)
        = List.replicate (((runLines [lineDash] false).1.getD 0 noEntry).target.toNat) '\t'
          ++ (str "<br>\n" ++ ['\n']) ∧
      (chunkOf ((runLines [lineDash] false).1.getD 0 noEntry)).getLast? = some '\n' :=
  c4_newline_amended [str "-"] false [lineDash] (by rfl) _ (by decide)
    (str "<br>\n") (by decide)

/-- A document with a line the classifier rejects never classifies: pass 1
returns some error. -/
theorem pass1_error_of_parse_error :
    ∀ (doc : List (List Char)),
      (∃ raw ∈ doc, get_line_type (raw.dropWhile (fun ch => ch = '\t'))
        = LineResult.parseError) →
      ∃ err, pass1 doc = Except.error err := by
  intro doc
  induction doc with
  | nil => rintro ⟨raw, hraw, _⟩; simp at hraw
  | cons r rs ih =>
    rintro ⟨raw, hraw, hbad⟩
    rcases List.mem_cons.mp hraw with rfl | hraw'
    · refine ⟨PassErr.parseError, ?_⟩
      simp [pass1, classifyLine, hbad]
    · obtain ⟨err, herr⟩ := ih ⟨raw, hraw', hbad⟩
      cases hc : classifyLine r with
      | error e => exact ⟨e, by simp [pass1, hc]⟩
      | ok li => exact ⟨err, by simp [pass1, hc, herr]⟩

/-- C7: if any input line's content (after leading tabs) hits the
classifier's error paths, the whole run aborts during pass 1 — before any
chunk is assembled and before any asset request is made: the export
yields an error, no output text and no requests. -/
theorem c7_unclassifiable_aborts :
    ∀ (doc : List (List Char)) (no_br : Bool),
      (∃ raw ∈ doc, get_line_type (raw.dropWhile (fun ch => ch = '\t'))
        = LineResult.parseError) →
      (∃ err, export_file_to_folder doc no_br = Except.error err) ∧
        exportText doc no_br = none ∧ exportReqs doc no_br = none := by
  intro doc no_br hbad
  obtain ⟨err, herr⟩ := pass1_error_of_parse_error doc hbad
  refine ⟨⟨err, ?_⟩, ?_, ?_⟩
  · simp [export_file_to_folder, herr]
  · simp [exportText, exportTrace, export_file_to_folder, herr]
  · simp [exportReqs, exportTrace, export_file_to_folder, herr]

/-- Witness for C7: the one-line document `*x` (first character neither
`#`, `-` nor space, no secondary tag) aborts with no output and no
requests. -/
theorem c7_unclassifiable_aborts_witness :
    (∃ err, export_file_to_folder [str "*x"] false = Except.error err) ∧
      exportText [str "*x"] false = none ∧ exportReqs [str "*x"] false = none :=
  c7_unclassifiable_aborts [str "*x"] false ⟨str "*x", by decide, by decide⟩

/-- Classification of lines that classify fine never blocks pass 1: with a
blank-content line behind them, the run dies on that line's IndexError. -/
theorem pass1_index_error_of_blank :
    ∀ (pre : List (List Char)) (raw : List Char) (rest : List (List Char)),
      raw.dropWhile (fun ch => ch = '\t') = [] →
      (∀ r ∈ pre, ∃ li, classifyLine r = Except.ok li) →
      pass1 (pre ++ raw :: rest) = Except.error PassErr.indexError := by
  intro pre
  induction pre with
  | nil =>
    intro raw rest hraw _
    have hc : classifyLine raw = Except.error PassErr.indexError := by
      simp [classifyLine, hraw, get_line_type]
    simp [pass1, hc]
  | cons p ps ih =>
    intro raw rest hraw hok
    obtain ⟨li, hli⟩ := hok p (List.mem_cons_self p ps)
    have htail := ih raw rest hraw (fun r hr => hok r (List.mem_cons_of_mem p hr))
    simp [pass1, hli, htail]

/-- C10: the classifier reads index 0 of the content string without
checking non-emptiness, so an empty content (a blank or tabs-only input
line) raises the distinct IndexError outcome rather than the classifier's
ClassificationError path; a document whose earlier lines all classify
cleanly and which contains such a line makes the whole export die with
that IndexError. -/
theorem c10_empty_content_index_error :
    get_line_type [] = LineResult.indexError ∧
      ∀ (pre : List (List Char)) (raw : List Char) (rest : List (List Char)) (no_br : Bool),
        raw.dropWhile (fun ch => ch = '\t') = [] →
        (∀ r ∈ pre, ∃ li, classifyLine r = Except.ok li) →
        export_file_to_folder (pre ++ raw :: rest) no_br
          = Except.error PassErr.indexError := by
  constructor
  · rfl
  · intro pre raw rest no_br hraw hok
    have h := pass1_index_error_of_blank pre raw rest hraw hok
    simp [export_file_to_folder, h]

/-- Witness for C10: the document `- A` followed by a blank line dies with
the IndexError outcome. -/
theorem c10_empty_content_index_error_witness :
    get_line_type [] = LineResult.indexError ∧
      export_file_to_folder [str "- A", []] false = Except.error PassErr.indexError :=
  ⟨c10_empty_content_index_error.1,
    c10_empty_content_index_error.2 [str "- A"] [] [] false (by decide)
      (by
        intro r hr
        simp only [List.mem_singleton] at hr
        exact ⟨{ content := str "- A", indent := 0, type := LineType.list,
                 hierarchy := LineHierarchy.parent }, by rw [hr]; rfl⟩)⟩
